import Mathlib

/-!
Verification of the ConsentiumJs client helper.

This file gives a shallow embedding of the pure core of the repository:
the MAC-address normalizer `normalizeMac` and the wide-feed flattener of
`receiveData` (src/unnamed/part_000, duplicated in src/consentium.js),
together with the payload builder of `sendData` and the post-response
logic of the HTTP wrappers.  The embedding follows the JavaScript source
line by line; JavaScript machine-level details that the source delegates
to builtins (string uppercasing, `Number(...)` coercion, `toFixed`,
`JSON.parse`) are modelled as explicit Lean functions or, for
`JSON.parse`, taken as an explicit function argument, as noted at each
definition.
-/

/-- JSON values as produced by `JSON.parse`.  Objects are association
lists with distinct keys (a parsed JSON object cannot hold duplicate
keys; later keys overwrite earlier ones before the program sees them). -/
inductive Json where
  | null
  | bool (b : Bool)
  | num (q : ℚ)
  | str (s : String)
  | arr (elems : List Json)
  | obj (fields : List (String × Json))

/-- The result domain of JavaScript numeric coercion.  JS numbers are
IEEE doubles; the source only produces them by exact decimal parsing and
arithmetic that stays far below 2^53, so they are modelled as exact
rationals, with `NaN` and the two infinities as separate constructors. -/
inductive JNum where
  | nan
  | inf (neg : Bool)
  | val (q : ℚ)
deriving DecidableEq

/-- Property access `x[key]` for the non-index keys the source uses
(`board`, `feeds`, `info1..info8`, `value1..value8`, `message`): defined
only on objects, `undefined` (= `none`) on every other value. -/
def lookupField : List (String × Json) → String → Option Json
  | [], _ => none
  | (k, v) :: rest, key => if k = key then some v else lookupField rest key

def jsonGet : Json → String → Option Json
  | .obj fields, key => lookupField fields key
  | _, _ => none

/-- JavaScript falsiness of a parsed JSON value (`!x`): `null`, `false`,
`0` and `""` are falsy; every object and array is truthy.  (`undefined`
and `NaN` cannot occur in parsed JSON.) -/
def jsonFalsy : Json → Bool
  | .null => true
  | .bool b => !b
  | .num q => q == 0
  | .str s => s.data.isEmpty
  | .arr _ => false
  | .obj _ => false

/-- Characters trimmed by JS `ToNumber` on strings (WhiteSpace and
LineTerminator code points; the rare Unicode `Zs` spaces beyond NBSP are
not modelled). -/
def jsWhitespace (c : Char) : Bool :=
  c.toNat = 9 || c.toNat = 10 || c.toNat = 11 || c.toNat = 12 ||
  c.toNat = 13 || c.toNat = 32 || c.toNat = 160 || c.toNat = 8232 ||
  c.toNat = 8233 || c.toNat = 65279

def isDigitCh (c : Char) : Bool := 48 ≤ c.toNat && c.toNat ≤ 57

def decDigit (c : Char) : Option Nat :=
  if isDigitCh c then some (c.toNat - 48) else none

def hexDigit (c : Char) : Option Nat :=
  if 48 ≤ c.toNat && c.toNat ≤ 57 then some (c.toNat - 48)
  else if 65 ≤ c.toNat && c.toNat ≤ 70 then some (c.toNat - 55)
  else if 97 ≤ c.toNat && c.toNat ≤ 102 then some (c.toNat - 87)
  else none

def octDigit (c : Char) : Option Nat :=
  if 48 ≤ c.toNat && c.toNat ≤ 55 then some (c.toNat - 48) else none

def binDigit (c : Char) : Option Nat :=
  if c = '0' then some 0 else if c = '1' then some 1 else none

/-- Digit-string value in a given base; `none` on the first character
that is not a digit of the base. -/
def parseDigitsBase (base : Nat) (dv : Char → Option Nat) (acc : Nat) :
    List Char → Option Nat
  | [] => some acc
  | c :: rest =>
    match dv c with
    | some d => parseDigitsBase base dv (acc * base + d) rest
    | none => none

/-- As `parseDigitsBase`, but at least one digit is required. -/
def parseDigits1 (base : Nat) (dv : Char → Option Nat) (l : List Char) :
    Option Nat :=
  if l.isEmpty then none else parseDigitsBase base dv 0 l

def digitsToNat (l : List Char) : Nat :=
  l.foldl (fun a c => a * 10 + (c.toNat - 48)) 0

/-- Optional exponent part `[eE][+-]?digits` of a decimal literal; the
whole rest of the input must be consumed. -/
def parseExpPart : List Char → Option Int
  | [] => some 0
  | c :: rest =>
    if c = 'e' || c = 'E' then
      match rest with
      | '+' :: ds => (parseDigits1 10 decDigit ds).map Int.ofNat
      | '-' :: ds => (parseDigits1 10 decDigit ds).map fun n => -(n : Int)
      | ds => (parseDigits1 10 decDigit ds).map Int.ofNat
    else none

/-- Exact value of the decimal literal with integer digits `ip`, fraction
digits `fp` and exponent `e`, i.e. `(ip + fp / 10 ^ |fp|) * 10 ^ e`,
assembled with `mkRat` so that the kernel can evaluate it. -/
def decLiteralVal (ip fp : List Char) (e : Int) : ℚ :=
  let base : Int := (digitsToNat ip : Int) * 10 ^ fp.length + digitsToNat fp
  match e with
  | .ofNat k => mkRat (base * 10 ^ k) (10 ^ fp.length)
  | .negSucc k => mkRat base (10 ^ fp.length * 10 ^ (k + 1))

/-- Unsigned decimal literal `digits [. digits] [exp]` or `. digits [exp]`
of the JS `StringNumericLiteral` grammar, as an exact rational. -/
def parseDecimalBody (l : List Char) : Option ℚ :=
  let ip := l.takeWhile isDigitCh
  let r1 := l.dropWhile isDigitCh
  match r1 with
  | '.' :: r2 =>
    let fp := r2.takeWhile isDigitCh
    let r3 := r2.dropWhile isDigitCh
    if ip.isEmpty && fp.isEmpty then none
    else (parseExpPart r3).map fun e => decLiteralVal ip fp e
  | _ =>
    if ip.isEmpty then none
    else (parseExpPart r1).map fun e => decLiteralVal ip [] e

def negJNum : JNum → JNum
  | .nan => .nan
  | .inf b => .inf (!b)
  | .val q => .val (-q)

/-- Unsigned body of a signed decimal literal: `Infinity` or a decimal
literal; anything else is `NaN`. -/
def decimalOrInf (l : List Char) : JNum :=
  if l = "Infinity".data then .inf false
  else
    match parseDecimalBody l with
    | some q => .val q
    | none => .nan

/-- JS `ToNumber` on a string (ECMAScript `StringNumericLiteral`):
trim, empty ↦ 0, `0x`/`0o`/`0b` radix literals, otherwise an optionally
signed decimal literal or `Infinity`; anything else is `NaN`.  Values are
kept as exact rationals (the rounding of a decimal literal to the nearest
IEEE double is not modelled; the feed values this program handles are
short decimals). -/
def jsStringToNumber (s : String) : JNum :=
  let t := ((s.data.dropWhile jsWhitespace).reverse.dropWhile jsWhitespace).reverse
  match t with
  | [] => .val 0
  | '0' :: 'x' :: rest =>
    (match parseDigits1 16 hexDigit rest with
     | some n => .val n | none => .nan)
  | '0' :: 'X' :: rest =>
    (match parseDigits1 16 hexDigit rest with
     | some n => .val n | none => .nan)
  | '0' :: 'o' :: rest =>
    (match parseDigits1 8 octDigit rest with
     | some n => .val n | none => .nan)
  | '0' :: 'O' :: rest =>
    (match parseDigits1 8 octDigit rest with
     | some n => .val n | none => .nan)
  | '0' :: 'b' :: rest =>
    (match parseDigits1 2 binDigit rest with
     | some n => .val n | none => .nan)
  | '0' :: 'B' :: rest =>
    (match parseDigits1 2 binDigit rest with
     | some n => .val n | none => .nan)
  | '+' :: r => decimalOrInf r
  | '-' :: r => negJNum (decimalOrInf r)
  | r => decimalOrInf r

/-- JS `Number(x)` on a parsed JSON value.  `ToPrimitive` on arrays and
objects (which stringifies them first) is not modelled — the feed slots
of this API carry primitives — so those coerce to `NaN` here. -/
def jsToNumber : Json → JNum
  | .null => .val 0
  | .bool b => .val (if b then 1 else 0)
  | .num q => .val q
  | .str s => jsStringToNumber s
  | .arr _ => .nan
  | .obj _ => .nan

/-! ### MAC normalizer (src/unnamed/part_000 lines 37-43) -/

/-- The character class `[0-9A-F]` of the stripping regex. -/
def isHexUpper (c : Char) : Bool :=
  (48 ≤ c.toNat && c.toNat ≤ 57) || (65 ≤ c.toNat && c.toNat ≤ 70)

/-- `String(mac).toUpperCase().replace(/[^0-9A-F]/g, '')` as a character
list.  JS `toUpperCase` is modelled by `Char.toUpper` (ASCII): no
character outside ASCII uppercases to an ASCII hex digit, so the
characters surviving the filter agree with JS. -/
def stripHex (s : String) : List Char :=
  (s.data.map Char.toUpper).filter isHexUpper

/-- `hex.match(/.{1,2}/g).join(':')`: split into groups of two
characters, a trailing odd character forming a group of one, and join
with `':'`. -/
def macFormat : List Char → List Char
  | [] => []
  | [c] => [c]
  | [a, b] => [a, b]
  | a :: b :: c :: rest => a :: b :: ':' :: macFormat (c :: rest)

/-- `normalizeMac` on a string argument (the `!mac` guard catches the
empty string): strip to uppercase hex, return the input unchanged unless
exactly 12 hex characters remain, otherwise regroup as colon-separated
pairs. -/
def normalizeMacStr (s : String) : String :=
  if s.data.isEmpty then s
  else
    let hex := stripHex s
    if hex.length ≠ 12 then s else ⟨macFormat hex⟩

/-- `normalizeMac` including the `null` case of its JS contract
(`null`/`undefined` is falsy, so the `!mac` guard returns it unchanged). -/
def normalizeMac (m : Option String) : Option String :=
  m.map normalizeMacStr

example : normalizeMacStr "aa-bb-cc-11-22-33" = "AA:BB:CC:11:22:33" := rfl
example : normalizeMacStr "AABBCC" = "AABBCC" := rfl
example : normalizeMacStr "" = "" := rfl
example : jsStringToNumber "23.5" = .val (mkRat 47 2) := by decide
example : jsStringToNumber "" = .val 0 := rfl
example : jsStringToNumber "abc" = .nan := rfl

/-! ### Feed flattener (src/unnamed/part_000 lines 113-127) -/

/-- One element of the `result` array built by `receiveData`:
`{ info: board[infoKey], value: Number(feed[valueKey]) }`. -/
structure SensorReading where
  info : Json
  value : JNum

def infoKey (i : Nat) : String := "info" ++ toString i

def valueKey (i : Nat) : String := "value" ++ toString i

/-- One iteration of the inner loop: push the reading onto the
accumulated `result` exactly when `board[infoKey] !== undefined` and
`feed[valueKey] !== undefined`. -/
def flattenStep (board feed : Json) (acc : List SensorReading) (i : Nat) :
    List SensorReading :=
  match jsonGet board (infoKey i), jsonGet feed (valueKey i) with
  | some inf, some v => acc ++ [⟨inf, jsToNumber v⟩]
  | some _, none => acc
  | none, _ => acc

/-- The inner `for (let i = 1; i <= 8; i++)` loop over one feed,
threading the shared `result` accumulator. -/
def innerLoop (board feed : Json) (acc : List SensorReading) :
    List SensorReading :=
  (List.range' 1 8).foldl (flattenStep board feed) acc

/-- The whole nested loop `for (const feed of feeds) for (let i = 1; ...)`
starting from the empty `result` array. -/
def flattenWideDoc (board : Json) (feeds : List Json) : List SensorReading :=
  feeds.foldl (fun acc feed => innerLoop board feed acc) []

/-- Declarative reading of one (feed, index) slot: the emitted record when
both sides are defined, `none` otherwise. -/
def emitAt (board feed : Json) (i : Nat) : Option SensorReading :=
  (jsonGet board (infoKey i)).bind fun inf =>
    (jsonGet feed (valueKey i)).map fun v => ⟨inf, jsToNumber v⟩

/-- Declarative per-feed output: indices 1..8 in ascending order, keeping
exactly the slots where both sides are defined. -/
def flattenFeed (board feed : Json) : List SensorReading :=
  ([1, 2, 3, 4, 5, 6, 7, 8] : List Nat).filterMap (emitAt board feed)

/-- Declarative whole-document output: feeds in input order, each
contributing its `flattenFeed` block. -/
def concatMapFeeds (board : Json) : List Json → List SensorReading
  | [] => []
  | f :: rest => flattenFeed board f ++ concatMapFeeds board rest

/-! ### Payload builder (src/unnamed/part_000 lines 32-60) -/

/-- One element of the `sensors` argument of `sendData`
(`{info, value}`; the contract declares `value` a number, but the code
coerces with `Number(...)`, so any JSON value is admitted here). -/
structure Sensor where
  info : String
  value : Json

/-- One element of the built `sensorData` array. -/
structure SensorOut where
  info : String
  data : String
deriving DecidableEq

/-- The `sensors` object of the payload. -/
structure SensorsField where
  sensorData : List SensorOut

/-- The `boardInfo` argument of `sendData`: each field may be absent
(`none`).  Field types follow the documented contract; the `||` defaulting
in the source tests JS falsiness, which on these types is `""` for
strings, `0` for numbers and `false` for booleans. -/
structure BoardInfoIn where
  firmwareVersion : Option String := none
  architecture : Option String := none
  deviceMAC : Option String := none
  statusOTA : Option Bool := none
  signalStrength : Option ℚ := none

/-- The `boardInfo` object of the built payload. -/
structure BoardInfoOut where
  firmwareVersion : String
  architecture : String
  deviceMAC : String
  statusOTA : Bool
  signalStrength : ℚ
deriving DecidableEq

/-- The payload document `{sensors: {sensorData}, boardInfo}`. -/
structure Payload where
  sensors : SensorsField
  boardInfo : BoardInfoOut

/-- `x || d` for an optional string field: absent or empty gives the
default. -/
def jsOrStr (x : Option String) (d : String) : String :=
  match x with
  | some s => if s.data.isEmpty then d else s
  | none => d

/-- `x || d` for an optional numeric field: absent or zero gives the
default (`NaN`, the other falsy number, cannot be stored in `ℚ` and does
not arise for this field). -/
def jsOrRat (x : Option ℚ) (d : ℚ) : ℚ :=
  match x with
  | some q => if q = 0 then d else q
  | none => d

/-- `!!x` for an optional boolean field. -/
def jsTruthyBool (x : Option Bool) : Bool := x.getD false

/-- `if (boardInfo && boardInfo.deviceMAC) boardInfo.deviceMAC =
normalizeMac(boardInfo.deviceMAC);` — the in-place mutation of the
caller's `boardInfo` object (line 44): the resulting value of that
object.  Only a present, non-empty (truthy) `deviceMAC` is rewritten. -/
def normalizeBoardMac (b : BoardInfoIn) : BoardInfoIn :=
  match b.deviceMAC with
  | some s =>
    if s.data.isEmpty then b else { b with deviceMAC := some (normalizeMacStr s) }
  | none => b

/-- `Number.prototype.toFixed(f)` for a nonnegative rational: the integer
`n` nearest to `x * 10 ^ f` (ties to the larger `n`), written with a
decimal point before the last `f` digits.  Computed on `num`/`den`
directly so the kernel can evaluate it:
`n = ⌊(2 * num * 10 ^ f + den) / (2 * den)⌋`. -/
def fixedRepr (num : Nat) (den : Nat) (f : Nat) : String :=
  let n := (2 * num * 10 ^ f + den) / (2 * den)
  let d := toString n
  if f = 0 then d
  else if d.length ≤ f then
    "0." ++ ⟨List.replicate (f - d.length) '0'⟩ ++ d
  else ⟨d.data.take (d.length - f)⟩ ++ "." ++ ⟨d.data.drop (d.length - f)⟩

/-- JS `x.toFixed(f)`.  `NaN` and the infinities print their names; for a
finite value the sign is split off and the magnitude rendered by
`fixedRepr`.  (The `RangeError` for `f > 100` and the switch to `ToString`
for magnitudes at or above `10 ^ 21` are not modelled: the program only
calls this with small precisions on sensor readings.) -/
def jnumToFixed : JNum → Nat → String
  | .nan, _ => "NaN"
  | .inf false, _ => "Infinity"
  | .inf true, _ => "-Infinity"
  | .val q, f =>
    if q < 0 then "-" ++ fixedRepr (-q.num).toNat q.den f
    else fixedRepr q.num.toNat q.den f

/-- The default value of the `precision` parameter of `sendData`. -/
def defaultPrecision : Nat := 4

/-- The payload document `sendData` builds (lines 44-60): the board-info
mutation of line 44 followed by the object literal of lines 46-60. -/
def buildPayload (sensors : List Sensor) (b0 : BoardInfoIn) (precision : Nat) :
    Payload :=
  let b := normalizeBoardMac b0
  { sensors :=
      { sensorData :=
          sensors.map fun s =>
            { info := s.info, data := jnumToFixed (jsToNumber s.value) precision } }
    boardInfo :=
      { firmwareVersion := jsOrStr b.firmwareVersion "0.0"
        architecture := jsOrStr b.architecture "unknown"
        deviceMAC := jsOrStr b.deviceMAC "00:00:00:00:00:00"
        statusOTA := jsTruthyBool b.statusOTA
        signalStrength := jsOrRat b.signalStrength 0 } }

example :
    (buildPayload [⟨"Temp", Json.num 2⟩] {} defaultPrecision).sensors.sensorData =
      [⟨"Temp", "2.0000"⟩] := by decide
example :
    (buildPayload [] {} defaultPrecision).boardInfo =
      ⟨"0.0", "unknown", "00:00:00:00:00:00", false, 0⟩ := by decide

example :
    flattenWideDoc (Json.obj [("info1", Json.str "Temp"), ("info3", Json.str "Light")])
      [Json.obj [("value1", Json.num 10), ("value2", Json.num 99), ("value3", Json.num 20)]] =
    [⟨Json.str "Temp", JNum.val 10⟩, ⟨Json.str "Light", JNum.val 20⟩] := rfl
example : flattenWideDoc (Json.obj []) [] = [] := rfl

/-! ### HTTP wrapper result logic (src/unnamed/part_000 lines 62-86 and
96-135).  The `fetch` call and the body read are external I/O; their
outcome — either a settled response with its flags and body text, or a
rejected promise carrying an error message — is taken as input, and the
builtin `JSON.parse` as a function argument.  What is embedded is the
computation from that outcome to the returned result object. -/

/-- Outcome of `await fetch(...)` together with `await res.text()`:
either a response (its `ok` flag, `status`, `statusText` and body text)
or a thrown error with its `message`. -/
inductive FetchOutcome where
  | response (ok : Bool) (status : Nat) (statusText : String) (text : String)
  | netError (message : String)

/-- The `body` field of a result: parsed JSON when `JSON.parse`
succeeded, otherwise the raw text. -/
inductive BodyVal where
  | json (j : Json)
  | text (s : String)

/-- Return value of `sendData`; absent object fields are `none`. -/
structure SendResult where
  ok : Bool
  status : Nat
  body : Option BodyVal := none
  error : Option String := none

/-- Return value of `receiveData`; absent object fields are `none`. -/
structure RecvResult where
  ok : Bool
  status : Nat
  feeds : Option (List SensorReading) := none
  body : Option BodyVal := none
  error : Option String := none

/-- `startsWithChars pat l` is true when `pat` is an initial segment of
`l`. -/
def startsWithChars : List Char → List Char → Bool
  | [], _ => true
  | _ :: _, [] => false
  | p :: ps, c :: cs => p = c && startsWithChars ps cs

/-- `l` contains `pat` as a contiguous run (JS `String.includes`). -/
def containsChars (pat : List Char) : List Char → Bool
  | [] => pat.isEmpty
  | c :: rest => startsWithChars pat (c :: rest) || containsChars pat rest

/-- The catch-block hint (lines 82-85): the raw error message, replaced
by a fixed explanation when it mentions `failed to fetch`. -/
def fetchHint (m : String) : String :=
  if containsChars "failed to fetch".data (m.toLower.data) then
    "Failed to fetch — network or CORS issue when called from a browser. Use server-side call or a proxy."
  else m

/-- `let body = bodyText; try { body = JSON.parse(bodyText) } catch
{ /* keep raw text */ }`. -/
def sendBody (parse : String → Option Json) (text : String) : BodyVal :=
  match parse text with
  | some j => BodyVal.json j
  | none => BodyVal.text text

/-- The value `sendData` resolves with, as a function of the fetch
outcome: `{ok, status, body}` on any settled response, and the catch
block's `{ok: false, status: 0, error: hint}` on a rejection. -/
def sendDataResult (parse : String → Option Json) :
    FetchOutcome → SendResult
  | .response ok status _ text =>
    { ok := ok, status := status, body := some (sendBody parse text) }
  | .netError m => { ok := false, status := 0, error := some (fetchHint m) }

/-- `x || d` on a parsed JSON value (`json.board || {}`,
`json.feeds || []`). -/
def jsonOrDefault (x : Option Json) (d : Json) : Json :=
  match x with
  | some v => if jsonFalsy v then d else v
  | none => d

/-- The element sequence of `for (const feed of feeds)`: arrays iterate
their elements, strings their characters (as one-character strings); any
other truthy value is not iterable and makes the loop throw a
`TypeError`, modelled as `none`. -/
def jsonIterate : Json → Option (List Json)
  | .arr xs => some xs
  | .str s => some (s.data.map fun c => Json.str (String.singleton c))
  | _ => none

/-- Message of the `TypeError` thrown by `for...of` on a non-iterable
(modelled text; the runtime wording varies by engine). -/
def notIterableMessage : String := "feeds is not iterable"

/-- The value `receiveData` resolves with, as a function of the fetch
outcome (lines 100-135): parse failure or a falsy parsed value returns
`{ok, status, body: raw text}` with no `feeds`; otherwise the wide-feed
document is flattened; a rejection (including the `TypeError` from a
truthy non-iterable `feeds` field) lands in the catch block. -/
def receiveDataLogic (parse : String → Option Json) :
    FetchOutcome → RecvResult
  | .netError m => { ok := false, status := 0, error := some (fetchHint m) }
  | .response ok status _ text =>
    match parse text with
    | none => { ok := ok, status := status, body := some (BodyVal.text text) }
    | some j =>
      if jsonFalsy j then
        { ok := ok, status := status, body := some (BodyVal.text text) }
      else
        let board := jsonOrDefault (jsonGet j "board") (Json.obj [])
        let feedsV := jsonOrDefault (jsonGet j "feeds") (Json.arr [])
        match jsonIterate feedsV with
        | some feeds =>
          { ok := ok, status := status,
            feeds := some (flattenWideDoc board feeds),
            body := some (BodyVal.json j) }
        | none =>
          { ok := false, status := 0,
            error := some (fetchHint notIterableMessage) }

/-- `responseData.message || response.statusText` of `submitSensorData`
(src/consentium.js line 67).  A non-string truthy `message` would be
stringified into the template; that exotic case is not modelled. -/
def apiMessage (j : Json) (statusText : String) : String :=
  match jsonGet j "message" with
  | some (Json.str s) => if s.data.isEmpty then statusText else s
  | _ => statusText

/-- Message of the `SyntaxError` rejection of `response.json()` on an
unparseable body (modelled text; the runtime wording varies by engine). -/
def jsonSyntaxErrorMessage : String := "Unexpected token in JSON"

/-- The behaviour of `submitSensorData` (src/consentium.js lines 53-76)
as a function of the fetch outcome: `Except.error` models a thrown
(re-thrown) error, `Except.ok` the returned parsed body.  A network
rejection and the `SyntaxError` of `response.json()` are re-thrown by the
catch block; a non-ok status raises the constructed `Error`. -/
def submitSensorDataResult (parse : String → Option Json) :
    FetchOutcome → Except String Json
  | .netError m => Except.error m
  | .response ok status statusText text =>
    match parse text with
    | none => Except.error jsonSyntaxErrorMessage
    | some j =>
      if ok then Except.ok j
      else
        Except.error
          ("API request failed with status " ++ toString status ++ ": " ++
            apiMessage j statusText)

/-! ### Spec-side reformulations used to state the claims -/

/-- Split a character list into groups of two, a trailing odd character
forming a group of one (spec reading of the formatting regex). -/
def chunk2 : List Char → List (List Char)
  | [] => []
  | [c] => [[c]]
  | a :: b :: rest => [a, b] :: chunk2 rest

/-- Join character groups with `':'` (spec reading of `join(':')`). -/
def joinColonChars : List (List Char) → List Char
  | [] => []
  | [g] => g
  | g :: rest => g ++ ':' :: joinColonChars rest

/-! ## Theorems -/

lemma flattenStep_emit (board feed : Json) (acc : List SensorReading) (i : Nat) :
    flattenStep board feed acc i = acc ++ (emitAt board feed i).toList := by
  unfold flattenStep emitAt
  cases jsonGet board (infoKey i) <;> cases jsonGet feed (valueKey i) <;> simp

lemma foldl_flattenStep (board feed : Json) :
    ∀ (l : List Nat) (acc : List SensorReading),
      l.foldl (flattenStep board feed) acc = acc ++ l.filterMap (emitAt board feed) := by
  intro l
  induction l with
  | nil => intro acc; simp
  | cons i rest ih =>
    intro acc
    rw [List.foldl_cons, ih, flattenStep_emit]
    cases h : emitAt board feed i <;> simp [List.filterMap_cons, h]

lemma innerLoop_eq (board feed : Json) (acc : List SensorReading) :
    innerLoop board feed acc = acc ++ flattenFeed board feed := by
  unfold innerLoop flattenFeed
  rw [foldl_flattenStep]
  rfl

lemma flattenWideDoc_concat (board : Json) :
    ∀ (feeds : List Json) (acc : List SensorReading),
      feeds.foldl (fun acc feed => innerLoop board feed acc) acc =
        acc ++ concatMapFeeds board feeds := by
  intro feeds
  induction feeds with
  | nil => intro acc; simp [concatMapFeeds]
  | cons f fs ih =>
    intro acc
    rw [List.foldl_cons, ih, innerLoop_eq, concatMapFeeds]
    simp

lemma concatMapFeeds_append (board : Json) :
    ∀ (fs1 fs2 : List Json),
      concatMapFeeds board (fs1 ++ fs2) =
        concatMapFeeds board fs1 ++ concatMapFeeds board fs2 := by
  intro fs1 fs2
  induction fs1 with
  | nil => simp [concatMapFeeds]
  | cons f fs ih => simp [concatMapFeeds, ih]

/-- C1: for every wide-feed document, the flattener emits the reading
`{info: board[infoKey], value: Number(feed[valueKey])}` for a feed at
index `i` in 1..8 exactly when both `board[infoKey]` and `feed[valueKey]`
are defined — definedness is tested before any look at the value, so a
`0` value or empty label is still emitted and an absent side emits
nothing. -/
theorem flattener_emission (board feed : Json) :
    (∀ acc, innerLoop board feed acc = acc ++ flattenFeed board feed)
    ∧ (∀ i, (emitAt board feed i).isSome =
        ((jsonGet board (infoKey i)).isSome && (jsonGet feed (valueKey i)).isSome))
    ∧ (∀ i inf v, jsonGet board (infoKey i) = some inf →
        jsonGet feed (valueKey i) = some v →
        emitAt board feed i = some ⟨inf, jsToNumber v⟩) := by
  refine ⟨fun acc => innerLoop_eq board feed acc, fun i => ?_, fun i inf v h1 h2 => ?_⟩
  · unfold emitAt
    cases jsonGet board (infoKey i) <;> cases jsonGet feed (valueKey i) <;> simp
  · simp [emitAt, h1, h2]

/-- Witness for C1: a defined label with the defined value `0` is
emitted. -/
theorem flattener_emission_w :
    jsonGet (Json.obj [("info1", Json.str "Temp")]) (infoKey 1) = some (Json.str "Temp")
    ∧ jsonGet (Json.obj [("value1", Json.num 0)]) (valueKey 1) = some (Json.num 0)
    ∧ emitAt (Json.obj [("info1", Json.str "Temp")]) (Json.obj [("value1", Json.num 0)]) 1 =
        some ⟨Json.str "Temp", jsToNumber (Json.num 0)⟩ :=
  ⟨rfl, rfl, (flattener_emission _ _).2.2 1 _ _ rfl rfl⟩

/-- C2: the flattener's output is the concatenation, in input feed order,
of the per-feed blocks (each block in ascending index order 1..8); in
particular splitting the feed sequence splits the output, so every
reading of an earlier feed precedes every reading of a later feed. -/
theorem flattener_order (board : Json) :
    (∀ feeds, flattenWideDoc board feeds = concatMapFeeds board feeds)
    ∧ (∀ fs1 fs2, flattenWideDoc board (fs1 ++ fs2) =
        flattenWideDoc board fs1 ++ flattenWideDoc board fs2) := by
  have h : ∀ feeds, flattenWideDoc board feeds = concatMapFeeds board feeds := by
    intro feeds
    unfold flattenWideDoc
    rw [flattenWideDoc_concat]
    simp
  exact ⟨h, fun fs1 fs2 => by rw [h, h, h, concatMapFeeds_append]⟩

lemma stripHex_of_nil (s : String) (h : s.data = []) : stripHex s = [] := by
  unfold stripHex
  rw [h]
  rfl

lemma normalizeMacStr_of_ne (s : String) (h : (stripHex s).length ≠ 12) :
    normalizeMacStr s = s := by
  unfold normalizeMacStr
  split
  · rfl
  · simp [h]

lemma normalizeMacStr_eq12 (s : String) (h : (stripHex s).length = 12) :
    normalizeMacStr s = ⟨macFormat (stripHex s)⟩ := by
  have hne : s.data.isEmpty = false := by
    rcases hd : s.data with _ | ⟨c, cs⟩
    · exact absurd h (by rw [stripHex_of_nil s hd]; simp)
    · rfl
  simp [normalizeMacStr, hne, h]

lemma macFormat_ne_nil : ∀ l : List Char, l ≠ [] → macFormat l ≠ [] := by
  intro l h
  rcases l with _ | ⟨a, _ | ⟨b, _ | ⟨c, rest⟩⟩⟩
  · exact absurd rfl h
  · simp [macFormat]
  · simp [macFormat]
  · simp [macFormat]

lemma chunk2_ne_nil : ∀ l : List Char, l ≠ [] → chunk2 l ≠ [] := by
  intro l h
  rcases l with _ | ⟨a, _ | ⟨b, rest⟩⟩
  · exact absurd rfl h
  · simp [chunk2]
  · simp [chunk2]

lemma macFormat_eq_join : ∀ l : List Char, macFormat l = joinColonChars (chunk2 l) := by
  intro l
  induction l using macFormat.induct with
  | case1 => rfl
  | case2 c => rfl
  | case3 a b => rfl
  | case4 a b c rest ih =>
    rw [macFormat, chunk2, ih]
    rcases hg : chunk2 (c :: rest) with _ | ⟨g, gs⟩
    · exact absurd hg (chunk2_ne_nil _ (by simp))
    · rfl

lemma chunk2_length : ∀ l : List Char, (chunk2 l).length = (l.length + 1) / 2 := by
  intro l
  induction l using chunk2.induct with
  | case1 => rfl
  | case2 c => simp [chunk2]
  | case3 a b rest ih =>
    rw [chunk2]
    simp only [List.length_cons, ih]
    omega

lemma chunk2_group_length :
    ∀ l : List Char, l.length % 2 = 0 → ∀ g ∈ chunk2 l, g.length = 2 := by
  intro l
  induction l using chunk2.induct with
  | case1 => intro _ g hg; simp [chunk2] at hg
  | case2 c => intro h; simp at h
  | case3 a b rest ih =>
    intro h g hg
    rw [chunk2] at hg
    rcases List.mem_cons.mp hg with rfl | hg
    · rfl
    · exact ih (by simp only [List.length_cons] at h; omega) g hg

lemma toUpper_hexUpper (c : Char) (h : isHexUpper c = true) : c.toUpper = c := by
  unfold isHexUpper at h
  simp only [Bool.or_eq_true, Bool.and_eq_true, decide_eq_true_eq] at h
  unfold Char.toUpper
  rw [if_neg]
  omega

lemma strip_macFormat :
    ∀ l : List Char, (∀ c ∈ l, isHexUpper c = true) →
      ((macFormat l).map Char.toUpper).filter isHexUpper = l := by
  intro l
  induction l using macFormat.induct with
  | case1 => intro _; rfl
  | case2 c =>
    intro h
    have hc := h c (by simp)
    simp [macFormat, toUpper_hexUpper c hc, hc]
  | case3 a b =>
    intro h
    have ha := h a (by simp)
    have hb := h b (by simp)
    simp [macFormat, toUpper_hexUpper a ha, toUpper_hexUpper b hb, ha, hb]
  | case4 a b c rest ih =>
    intro h
    have ha := h a (by simp)
    have hb := h b (by simp)
    have hcolon : (':' : Char).toUpper = ':' := rfl
    have hcolon2 : isHexUpper ':' = false := rfl
    rw [macFormat]
    simp [List.filter_cons, toUpper_hexUpper a ha, toUpper_hexUpper b hb,
      ha, hb, hcolon, hcolon2, ih (fun x hx => h x (by simp [hx]))]

/-- C3: on any string whose uppercased hex-stripped form has exactly 12
characters, the normalizer returns those 12 hex digits regrouped as 6
groups of 2 joined by `':'`. -/
theorem normalizeMac_groups (s : String) (h : (stripHex s).length = 12) :
    normalizeMacStr s = ⟨joinColonChars (chunk2 (stripHex s))⟩
    ∧ (chunk2 (stripHex s)).length = 6
    ∧ ∀ g ∈ chunk2 (stripHex s), g.length = 2 := by
  refine ⟨?_, ?_, ?_⟩
  · rw [normalizeMacStr_eq12 s h, macFormat_eq_join]
  · rw [chunk2_length, h]
  · exact chunk2_group_length _ (by rw [h]) 

/-- Witness for C3: the mixed-case punctuated example of the spec. -/
theorem normalizeMac_groups_w :
    (stripHex "aa-bb-cc-11-22-33").length = 12
    ∧ normalizeMacStr "aa-bb-cc-11-22-33" =
        ⟨joinColonChars (chunk2 (stripHex "aa-bb-cc-11-22-33"))⟩ :=
  ⟨by decide, (normalizeMac_groups _ (by decide)).1⟩

/-- C6: the normalizer is a total pass-through on failure: `null` and the
empty string come back unchanged, and any string whose stripped hex form
does not have length 12 is returned as the original string, never the
stripped version; being a total Lean function, no input faults. -/
theorem normalizeMac_total_passthrough :
    normalizeMac none = none
    ∧ normalizeMacStr "" = ""
    ∧ ∀ s : String, (stripHex s).length ≠ 12 → normalizeMacStr s = s :=
  ⟨rfl, rfl, fun s h => normalizeMacStr_of_ne s h⟩

/-- Witness for C6: a 6-hex-character input fails the length check and is
returned verbatim. -/
theorem normalizeMac_total_passthrough_w :
    (stripHex "AABBCC").length ≠ 12 ∧ normalizeMacStr "AABBCC" = "AABBCC" :=
  ⟨by decide, normalizeMac_total_passthrough.2.2 "AABBCC" (by decide)⟩

/-- C8: on any string that strips to exactly 12 hex characters, the
normalizer is idempotent. -/
theorem normalizeMac_idem (s : String) (h : (stripHex s).length = 12) :
    normalizeMacStr (normalizeMacStr s) = normalizeMacStr s := by
  have hhex : ∀ c ∈ stripHex s, isHexUpper c = true := by
    intro c hc
    exact (List.mem_filter.mp hc).2
  have hne : stripHex s ≠ [] := by
    intro he
    rw [he] at h
    simp at h
  have hmne : macFormat (stripHex s) ≠ [] := macFormat_ne_nil _ hne
  have hstrip : stripHex ⟨macFormat (stripHex s)⟩ = stripHex s :=
    strip_macFormat _ hhex
  rw [normalizeMacStr_eq12 s h, normalizeMacStr_eq12 ⟨macFormat (stripHex s)⟩
    (by rw [hstrip, h]), hstrip]

/-- Witness for C8. -/
theorem normalizeMac_idem_w :
    (stripHex "aa:bb:cc:11:22:33").length = 12
    ∧ normalizeMacStr (normalizeMacStr "aa:bb:cc:11:22:33") =
        normalizeMacStr "aa:bb:cc:11:22:33" :=
  ⟨by decide, normalizeMac_idem "aa:bb:cc:11:22:33" (by decide)⟩

lemma normalizeBoardMac_firmware (b : BoardInfoIn) :
    (normalizeBoardMac b).firmwareVersion = b.firmwareVersion := by
  unfold normalizeBoardMac
  cases b.deviceMAC with
  | none => rfl
  | some s =>
    dsimp only
    split <;> rfl

lemma normalizeBoardMac_arch (b : BoardInfoIn) :
    (normalizeBoardMac b).architecture = b.architecture := by
  unfold normalizeBoardMac
  cases b.deviceMAC with
  | none => rfl
  | some s =>
    dsimp only
    split <;> rfl

lemma normalizeBoardMac_ota (b : BoardInfoIn) :
    (normalizeBoardMac b).statusOTA = b.statusOTA := by
  unfold normalizeBoardMac
  cases b.deviceMAC with
  | none => rfl
  | some s =>
    dsimp only
    split <;> rfl

lemma normalizeBoardMac_signal (b : BoardInfoIn) :
    (normalizeBoardMac b).signalStrength = b.signalStrength := by
  unfold normalizeBoardMac
  cases b.deviceMAC with
  | none => rfl
  | some s =>
    dsimp only
    split <;> rfl

lemma normalizeBoardMac_none (b : BoardInfoIn) (h : b.deviceMAC = none) :
    normalizeBoardMac b = b := by
  unfold normalizeBoardMac
  rw [h]

lemma normalizeBoardMac_some (b : BoardInfoIn) (s : String)
    (h1 : b.deviceMAC = some s) (h2 : s.data.isEmpty = false) :
    normalizeBoardMac b = { b with deviceMAC := some (normalizeMacStr s) } := by
  unfold normalizeBoardMac
  rw [h1]
  simp [h2]

lemma normalizeMacStr_ne_empty (s : String) (h : s.data.isEmpty = false) :
    (normalizeMacStr s).data.isEmpty = false := by
  by_cases hl : (stripHex s).length = 12
  · rw [normalizeMacStr_eq12 s hl]
    have hne : stripHex s ≠ [] := by
      intro he
      rw [he] at hl
      simp at hl
    have := macFormat_ne_nil _ hne
    show (macFormat (stripHex s)).isEmpty = false
    simpa [List.isEmpty_iff] using this
  · rw [normalizeMacStr_of_ne s hl]
    exact h

lemma buildPayload_mac (sensors : List Sensor) (b : BoardInfoIn) (p : Nat) :
    (buildPayload sensors b p).boardInfo.deviceMAC =
      jsOrStr (normalizeBoardMac b).deviceMAC "00:00:00:00:00:00" := rfl

/-- C4 counterexample: an empty-string MAC is a supplied value whose
normalization fails (it strips to 0 hex characters), yet the built
document carries the default `"00:00:00:00:00:00"`, not the original
`""` — the truthiness guard of line 44 skips it and the `||` default of
line 56 replaces it. -/
theorem mac_empty_dropped :
    (stripHex "").length ≠ 12
    ∧ ({ deviceMAC := some "" } : BoardInfoIn).deviceMAC = some ""
    ∧ (buildPayload [] { deviceMAC := some "" } defaultPrecision).boardInfo.deviceMAC =
        "00:00:00:00:00:00" :=
  ⟨by decide, rfl, rfl⟩

/-- C4 amended: whenever a non-empty MAC string is supplied, it is passed
through the normalizer before being placed in the document, and when
normalization fails (stripped length other than 12) the original string
is preserved unchanged there; a supplied empty string is instead replaced
by the default MAC. -/
theorem mac_normalized_in_payload (sensors : List Sensor) (b : BoardInfoIn)
    (p : Nat) (s : String) (h1 : b.deviceMAC = some s)
    (h2 : s.data.isEmpty = false) :
    (buildPayload sensors b p).boardInfo.deviceMAC = normalizeMacStr s
    ∧ ((stripHex s).length ≠ 12 →
        (buildPayload sensors b p).boardInfo.deviceMAC = s) := by
  have hmain : (buildPayload sensors b p).boardInfo.deviceMAC = normalizeMacStr s := by
    rw [buildPayload_mac, normalizeBoardMac_some b s h1 h2]
    simp [jsOrStr, normalizeMacStr_ne_empty s h2]
  exact ⟨hmain, fun hl => by rw [hmain, normalizeMacStr_of_ne s hl]⟩

/-- Witness for the amended C4: a punctuated MAC is normalized into the
document. -/
theorem mac_normalized_in_payload_w :
    ({ deviceMAC := some "aa-bb-cc-11-22-33" } : BoardInfoIn).deviceMAC =
      some "aa-bb-cc-11-22-33"
    ∧ ("aa-bb-cc-11-22-33" : String).data.isEmpty = false
    ∧ (buildPayload [] { deviceMAC := some "aa-bb-cc-11-22-33" }
        defaultPrecision).boardInfo.deviceMAC =
        normalizeMacStr "aa-bb-cc-11-22-33" :=
  ⟨rfl, rfl,
    (mac_normalized_in_payload [] { deviceMAC := some "aa-bb-cc-11-22-33" }
      defaultPrecision "aa-bb-cc-11-22-33" rfl rfl).1⟩

/-- C7: each sensor value appears in the document as
`Number(value).toFixed(precision)` (a string, with 4 the default
precision), and every absent board-metadata field is filled with its
documented default. -/
theorem buildPayload_defaults (sensors : List Sensor) (b : BoardInfoIn) (p : Nat) :
    (buildPayload sensors b p).sensors.sensorData =
      sensors.map (fun s => ⟨s.info, jnumToFixed (jsToNumber s.value) p⟩)
    ∧ defaultPrecision = 4
    ∧ (b.firmwareVersion = none →
        (buildPayload sensors b p).boardInfo.firmwareVersion = "0.0")
    ∧ (b.architecture = none →
        (buildPayload sensors b p).boardInfo.architecture = "unknown")
    ∧ (b.deviceMAC = none →
        (buildPayload sensors b p).boardInfo.deviceMAC = "00:00:00:00:00:00")
    ∧ (b.statusOTA = none →
        (buildPayload sensors b p).boardInfo.statusOTA = false)
    ∧ (b.signalStrength = none →
        (buildPayload sensors b p).boardInfo.signalStrength = 0) := by
  refine ⟨rfl, rfl, fun h => ?_, fun h => ?_, fun h => ?_, fun h => ?_, fun h => ?_⟩
  · show jsOrStr (normalizeBoardMac b).firmwareVersion "0.0" = "0.0"
    rw [normalizeBoardMac_firmware, h]
    rfl
  · show jsOrStr (normalizeBoardMac b).architecture "unknown" = "unknown"
    rw [normalizeBoardMac_arch, h]
    rfl
  · show jsOrStr (normalizeBoardMac b).deviceMAC "00:00:00:00:00:00" =
      "00:00:00:00:00:00"
    rw [normalizeBoardMac_none b h, h]
    rfl
  · show jsTruthyBool (normalizeBoardMac b).statusOTA = false
    rw [normalizeBoardMac_ota, h]
    rfl
  · show jsOrRat (normalizeBoardMac b).signalStrength 0 = 0
    rw [normalizeBoardMac_signal, h]
    rfl

/-- Witness for C7: the all-defaults board on one concrete sensor. -/
theorem buildPayload_defaults_w :
    ({} : BoardInfoIn).firmwareVersion = none
    ∧ ({} : BoardInfoIn).architecture = none
    ∧ ({} : BoardInfoIn).deviceMAC = none
    ∧ ({} : BoardInfoIn).statusOTA = none
    ∧ ({} : BoardInfoIn).signalStrength = none
    ∧ (buildPayload [⟨"Temp", Json.num 2⟩] {} defaultPrecision).boardInfo =
        ⟨"0.0", "unknown", "00:00:00:00:00:00", false, 0⟩
    ∧ (buildPayload [⟨"Temp", Json.num 2⟩] {} defaultPrecision).sensors.sensorData =
        [⟨"Temp", jnumToFixed (jsToNumber (Json.num 2)) defaultPrecision⟩] := by
  have h := buildPayload_defaults [⟨"Temp", Json.num 2⟩] {} defaultPrecision
  exact ⟨rfl, rfl, rfl, rfl, rfl,
    by
      have h1 := h.2.2.1 rfl
      have h2 := h.2.2.2.1 rfl
      have h3 := h.2.2.2.2.1 rfl
      have h4 := h.2.2.2.2.2.1 rfl
      have h5 := h.2.2.2.2.2.2 rfl
      cases hb : (buildPayload [⟨"Temp", Json.num 2⟩] {} defaultPrecision).boardInfo
      rw [hb] at h1 h2 h3 h4 h5
      simp at h1 h2 h3 h4 h5
      rw [h1, h2, h3, h4, h5],
    h.1⟩

/-- C9: `sendData` mutates its `boardInfo` argument in place — a supplied
truthy `deviceMAC` is overwritten with its normalized form before the
payload is built, while every other field of the caller's object is left
unchanged (and a missing `deviceMAC` leaves the object untouched). -/
theorem sendData_mutates_boardInfo (b : BoardInfoIn) :
    (∀ s, b.deviceMAC = some s → s.data.isEmpty = false →
      normalizeBoardMac b = { b with deviceMAC := some (normalizeMacStr s) })
    ∧ (b.deviceMAC = none → normalizeBoardMac b = b)
    ∧ (normalizeBoardMac b).firmwareVersion = b.firmwareVersion
    ∧ (normalizeBoardMac b).architecture = b.architecture
    ∧ (normalizeBoardMac b).statusOTA = b.statusOTA
    ∧ (normalizeBoardMac b).signalStrength = b.signalStrength :=
  ⟨fun s h1 h2 => normalizeBoardMac_some b s h1 h2,
   fun h => normalizeBoardMac_none b h,
   normalizeBoardMac_firmware b, normalizeBoardMac_arch b,
   normalizeBoardMac_ota b, normalizeBoardMac_signal b⟩

/-- Witness for C9: a concrete board object keeps its firmware version
while its MAC is rewritten. -/
theorem sendData_mutates_boardInfo_w :
    ({ firmwareVersion := some "1.0", deviceMAC := some "aabbcc112233" } :
        BoardInfoIn).deviceMAC = some "aabbcc112233"
    ∧ ("aabbcc112233" : String).data.isEmpty = false
    ∧ normalizeBoardMac
        { firmwareVersion := some "1.0", deviceMAC := some "aabbcc112233" } =
        { firmwareVersion := some "1.0",
          deviceMAC := some (normalizeMacStr "aabbcc112233") } :=
  ⟨rfl, rfl,
    (sendData_mutates_boardInfo _).1 "aabbcc112233" rfl rfl⟩

/-- C5 counterexample: `submitSensorData` (src/consentium.js) is a
submission call of this repository, and on a transport failure it
re-throws the error (modelled by `Except.error`) instead of resolving
with a `{ok: false, status: 0}` result object — its own documentation
declares `@throws`. -/
theorem submit_raises :
    submitSensorDataResult (fun _ => none)
      (FetchOutcome.netError "connection refused") =
      Except.error "connection refused" := rfl

/-- C5 amended: the `sendData`/`receiveData` wrappers surface failures as
structured results and never throw — a transport failure yields
`{ok: false, status: 0}` with the descriptive hint, and a settled
response comes back with its own status and the server's body (raw text
when it fails to parse) — while the `submitSensorData` family of
src/consentium.js instead re-throws its failures. -/
theorem send_receive_structured (parse : String → Option Json) :
    (∀ m, sendDataResult parse (FetchOutcome.netError m) =
      { ok := false, status := 0, error := some (fetchHint m) })
    ∧ (∀ ok status st text,
        sendDataResult parse (FetchOutcome.response ok status st text) =
          { ok := ok, status := status, body := some (sendBody parse text) })
    ∧ (∀ m, receiveDataLogic parse (FetchOutcome.netError m) =
      { ok := false, status := 0, error := some (fetchHint m) })
    ∧ (∀ ok status st text, parse text = none →
        receiveDataLogic parse (FetchOutcome.response ok status st text) =
          { ok := ok, status := status, body := some (BodyVal.text text) }) := by
  refine ⟨fun m => rfl, fun ok status st text => rfl, fun m => rfl,
    fun ok status st text h => ?_⟩
  simp [receiveDataLogic, h]

/-- Witness for the amended C5: a 500 response with an unparseable body
is returned, not thrown, with its status and raw body. -/
theorem send_receive_structured_w :
    (fun _ : String => (none : Option Json)) "oops" = none
    ∧ receiveDataLogic (fun _ => none)
        (FetchOutcome.response false 500 "Internal Server Error" "oops") =
        { ok := false, status := 500, body := some (BodyVal.text "oops") } :=
  ⟨rfl, (send_receive_structured _).2.2.2 false 500 "Internal Server Error" "oops" rfl⟩

/-- C10: when the response body does not parse as JSON, `receiveData`
returns `{ok, status, body: raw text}` with no `feeds` field at all (the
field is absent, not an empty list). -/
theorem receiveData_raw_body (parse : String → Option Json) (ok : Bool)
    (status : Nat) (st text : String) (h : parse text = none) :
    receiveDataLogic parse (FetchOutcome.response ok status st text) =
      { ok := ok, status := status, feeds := none,
        body := some (BodyVal.text text), error := none } := by
  simp [receiveDataLogic, h]

/-- Witness for C10. -/
theorem receiveData_raw_body_w :
    (fun _ : String => (none : Option Json)) "<html>" = none
    ∧ receiveDataLogic (fun _ => none)
        (FetchOutcome.response true 200 "OK" "<html>") =
        { ok := true, status := 200, feeds := none,
          body := some (BodyVal.text "<html>"), error := none } :=
  ⟨rfl, receiveData_raw_body (fun _ => none) true 200 "OK" "<html>" rfl⟩
